import Mathlib

/-!
# Verification of the go-adsb CPR / Mode S decoding routines

A shallow embedding, over the exact rationals `ℚ`, of the position and
velocity decoding code of the `adsb` package (the CPR local/global
decoders, the NL longitude-zone lookup, and the `Message` semantic
accessors), together with proofs of the specified properties.

Modelling conventions:
* Go `float64` arithmetic is modelled by exact arithmetic in `ℚ`.  Every
  operation appearing in the embedded code (`+`, `-`, `*`, `/`,
  `math.Floor`, `math.Round`, `math.Abs`, comparisons, and the decimal
  literals of the NL table) is exact on the inputs considered, so the
  model agrees with the IEEE double computation wherever double rounding
  does not cross a comparison threshold.  The special values NaN and
  ±Inf are modelled separately by the type `GoF` where a property
  quantifies over them.
* `math.Cos` is transcendental and is abstracted as a parameter
  `cosDeg : ℚ → ℚ` standing for `fun x => Real.cos (x * Real.pi / 180)`;
  every theorem below holds for an arbitrary such parameter.
* Machine integers are modelled as `ℕ` (with explicit wrap-around where
  Go performs `uint8` arithmetic).
-/

set_option allowUnsafeReducibility true

attribute [semireducible] Rat.mul Rat.add Rat.sub Rat.inv Rat.div Rat.ofScientific Rat.neg

namespace GoAdsb

/-- Go `math.Floor`, as a map `ℚ → ℚ` (integer-valued). -/
def floorq (x : ℚ) : ℚ := (⌊x⌋ : ℚ)

/-- Go `math.Round` (round half away from zero), as an integer. -/
def goRoundZ (x : ℚ) : ℤ := if 0 ≤ x then ⌊x + 1/2⌋ else -⌊-x + 1/2⌋

/-- Go `math.Round` (round half away from zero), as a map `ℚ → ℚ`. -/
def goRound (x : ℚ) : ℚ := (goRoundZ x : ℚ)

/-- The `mod` function of the adsb package:
`mod(a, b) = a - (b * math.Floor(a/b))`. -/
def modq (a b : ℚ) : ℚ := a - b * floorq (a / b)

/-- Go `uint8` subtraction `a - b` (wrap-around modulo 256), for `a < 256`. -/
def u8sub (a b : ℕ) : ℕ := (a + 256 - b % 256) % 256

/-- The `nlTbl` lookup table of the adsb package: absolute-latitude
thresholds indexed by NL value (2..59); other indices are never
consulted by `cprNL`. -/
def nlTbl : ℕ → ℚ
  | 59 => 10.4704713
  | 58 => 14.82817437
  | 57 => 18.18626357
  | 56 => 21.02939493
  | 55 => 23.54504487
  | 54 => 25.82924707
  | 53 => 27.9389871
  | 52 => 29.91135686
  | 51 => 31.77209708
  | 50 => 33.53993436
  | 49 => 35.22899598
  | 48 => 36.85025108
  | 47 => 38.41241892
  | 46 => 39.92256684
  | 45 => 41.38651832
  | 44 => 42.80914012
  | 43 => 44.19454951
  | 42 => 45.54626723
  | 41 => 46.86733252
  | 40 => 48.16039128
  | 39 => 49.42776439
  | 38 => 50.67150166
  | 37 => 51.89342469
  | 36 => 53.09516153
  | 35 => 54.27817472
  | 34 => 55.44378444
  | 33 => 56.59318756
  | 32 => 57.72747354
  | 31 => 58.84763776
  | 30 => 59.95459277
  | 29 => 61.04917774
  | 28 => 62.13216659
  | 27 => 63.20427479
  | 26 => 64.26616523
  | 25 => 65.3184531
  | 24 => 66.36171008
  | 23 => 67.39646774
  | 22 => 68.42322022
  | 21 => 69.44242631
  | 20 => 70.45451075
  | 19 => 71.45986473
  | 18 => 72.45884545
  | 17 => 73.45177442
  | 16 => 74.43893416
  | 15 => 75.42056257
  | 14 => 76.39684391
  | 13 => 77.36789461
  | 12 => 78.33374083
  | 11 => 79.29428225
  | 10 => 80.24923213
  | 9 => 81.19801349
  | 8 => 82.13956981
  | 7 => 83.07199445
  | 6 => 83.99173563
  | 5 => 84.89166191
  | 4 => 85.75541621
  | 3 => 86.53536998
  | 2 => 87
  | _ => 0

/-- The scanning loop of `cprNL`: for `i` from the given start down to 2,
return the first `i` with `x < nlTbl i`, else 1. -/
def cprNLFrom (x : ℚ) : ℕ → ℕ
  | 0 => 1
  | 1 => 1
  | n + 2 => if x < nlTbl (n + 2) then n + 2 else cprNLFrom x (n + 1)

/-- `cprNL` of the adsb package: the longitude zone count of a latitude,
scanning the table from 59 down to 2 on `|x|`. -/
def cprNL (x : ℚ) : ℕ := cprNLFrom |x| 59

/-- A model of the Go `float64` values relevant to `cprNL`: NaN, the two
infinities (`inf true` is negative infinity), and finite values mapped to
their exact rational value (signed zero collapses to `fin 0`, which the
operations used by `cprNL` do not distinguish). -/
inductive GoF where
  | nan : GoF
  | inf : Bool → GoF
  | fin : ℚ → GoF

/-- IEEE negation on the float model. -/
def GoF.neg : GoF → GoF
  | nan => nan
  | inf s => inf !s
  | fin q => fin (-q)

/-- Go `math.Abs` on the float model (`Abs(NaN) = NaN`, `Abs(±Inf) = +Inf`). -/
def GoF.abs : GoF → GoF
  | nan => nan
  | inf _ => inf false
  | fin q => fin |q|

/-- IEEE `<` on the float model: any comparison against NaN is false. -/
def GoF.ltb : GoF → GoF → Bool
  | nan, _ => false
  | _, nan => false
  | inf s, inf t => s && !t
  | inf s, fin _ => s
  | fin _, inf t => !t
  | fin a, fin b => decide (a < b)

/-- The scanning loop of `cprNL` on the float model. -/
def cprNLFFrom (x : GoF) : ℕ → ℕ
  | 0 => 1
  | 1 => 1
  | n + 2 => if GoF.ltb x (.fin (nlTbl (n + 2))) then n + 2 else cprNLFFrom x (n + 1)

/-- `cprNL` on the float model, covering NaN and infinite inputs. -/
def cprNLF (x : GoF) : ℕ := cprNLFFrom x.abs 59

/-- The `CPR` struct of the adsb package (`Nb`, `T`, `F` are `uint8`,
`Lat`, `Lon` are `uint32`; all modelled as `ℕ`). -/
structure CPR where
  Nb : ℕ
  T : ℕ
  F : ℕ
  Lat : ℕ
  Lon : ℕ

/-- The encoded-fraction conversion `float64(v) / 131072` (2^17). -/
def cprFrac (n : ℕ) : ℚ := (n : ℚ) / 131072

/-- `CPR.DecodeLocal` of the adsb package.  The `uint8` subtractions
`60 - c.F` and `cprNL(...) - c.F` are modelled by `u8sub`; the model is
exact whenever `u8sub 60 c.F ≠ 0`, i.e. except for the float
division-by-zero case `c.F = 60` (the format flag is one bit in every
producer of `CPR`). -/
def decodeLocalCore (c : CPR) (latr lonr : ℚ) (isAirBorne : Bool) : Except String (List ℚ) :=
  if latr > 90 ∨ latr < -90 then .error "latitude out of range (-90 to 90)"
  else if lonr > 190 ∨ lonr < -180 then .error "longitude out of range (-180 to 180)"
  else
    let latc := cprFrac c.Lat
    let lonc := cprFrac c.Lon
    let dlat : ℚ :=
      if isAirBorne then 360 / (u8sub 60 c.F : ℚ) else 90 / (u8sub 60 c.F : ℚ)
    let j := floorq (latr / dlat) + floorq (modq latr dlat / dlat - latc + 0.5)
    let lat := dlat * (j + latc)
    let nl : ℚ := (u8sub (cprNL lat) c.F : ℚ)
    let dlon : ℚ :=
      if isAirBorne then (if nl = 0 then 360 else 360 / nl)
      else (if nl = 0 then 90 else 90 / nl)
    let m := floorq (lonr / dlon) + floorq (modq lonr dlon / dlon - lonc + 0.5)
    .ok [lat, dlon * (m + lonc)]

/-- `CPR.DecodeLocal` of the adsb package: the reference-point length
check, then `decodeLocalCore`. -/
def CPR.DecodeLocal (c : CPR) (rp : List ℚ) (isAirBorne : Bool) : Except String (List ℚ) :=
  match rp with
  | [latr, lonr] => decodeLocalCore c latr lonr isAirBorne
  | _ => .error "must provide [lat, lon] as argument"

/-- The frame-role assignment at the top of `DecodeGlobalPosition`:
`t0` is true when the even frame is the later message (`c1.F ≠ 0`), and
the even/odd encoded fractions are taken from the matching argument. -/
structure GFrames where
  t0 : Bool
  lat0 : ℚ
  lon0 : ℚ
  lat1 : ℚ
  lon1 : ℚ

/-- The `if c1.F == 0` assignment block of `DecodeGlobalPosition`. -/
def globalFrames (c1 c2 : CPR) : GFrames :=
  if c1.F = 0 then ⟨false, cprFrac c1.Lat, cprFrac c1.Lon, cprFrac c2.Lat, cprFrac c2.Lon⟩
  else ⟨true, cprFrac c2.Lat, cprFrac c2.Lon, cprFrac c1.Lat, cprFrac c1.Lon⟩

/-- `dlat0` of `DecodeGlobalPosition`: `360/60` airborne, `90/60` surface. -/
def globalDlat0 (isAirBorne : Bool) : ℚ := if isAirBorne then 360 / 60 else 90 / 60

/-- `dlat1` of `DecodeGlobalPosition`: `360/59` airborne, `90/59` surface. -/
def globalDlat1 (isAirBorne : Bool) : ℚ := if isAirBorne then 360 / 59 else 90 / 59

/-- The latitude index `j = math.Floor(59*lat0 - 60*lat1 + 0.5)`. -/
def globalJ (lat0 lat1 : ℚ) : ℚ := floorq (59 * lat0 - 60 * lat1 + 0.5)

/-- The `if rlat >= 270 { rlat -= 360 }` adjustment of `DecodeGlobalPosition`. -/
def postAdjust270 (r : ℚ) : ℚ := if r ≥ 270 then r - 360 else r

/-- `rlat0 = dlat0 * (mod(j, 60) + lat0)`, minus 360 when at least 270. -/
def globalRlat0 (isAirBorne : Bool) (lat0 lat1 : ℚ) : ℚ :=
  postAdjust270 (globalDlat0 isAirBorne * (modq (globalJ lat0 lat1) 60 + lat0))

/-- `rlat1 = dlat1 * (mod(j, 59) + lat1)`, minus 360 when at least 270. -/
def globalRlat1 (isAirBorne : Bool) (lat0 lat1 : ℚ) : ℚ :=
  postAdjust270 (globalDlat1 isAirBorne * (modq (globalJ lat0 lat1) 59 + lat1))

/-- The `nl` value of `calcGlobal`: `cprNL(rlat0)` when the even frame is
later (`t0`), else `cprNL(rlat1)`. -/
def calcNL (t0 : Bool) (rlat0 rlat1 : ℚ) : ℚ :=
  if t0 then (cprNL rlat0 : ℚ) else (cprNL rlat1 : ℚ)

/-- The `ni` value of `calcGlobal`: `nl` clamped below at 1 in the even
branch, `nl - 1` clamped below at 1 in the odd branch. -/
def calcNi (t0 : Bool) (nl : ℚ) : ℚ :=
  if t0 then (if nl ≤ 1 then 1 else nl) else (if nl - 1 ≤ 1 then 1 else nl - 1)

/-- The `dlon` value of `calcGlobal`: `360/ni` airborne, `90/ni` surface. -/
def calcDlon (isAirborne : Bool) (ni : ℚ) : ℚ := if isAirborne then 360 / ni else 90 / ni

/-- The longitude index `m = math.Round(lon0*(nl-1) - lon1*nl)` of
`calcGlobal` (`nl` is un-decremented in both branches). -/
def calcM (lon0 lon1 nl : ℚ) : ℚ := goRound (lon0 * (nl - 1) - lon1 * nl)

/-- `coord[1] = dlon * (mod(m, ni) + lonc)` of `calcGlobal`, before the
180-degree wrap. -/
def calcLonRaw (t0 isAirborne : Bool) (lon0 lon1 rlat0 rlat1 : ℚ) : ℚ :=
  calcDlon isAirborne (calcNi t0 (calcNL t0 rlat0 rlat1)) *
    (modq (calcM lon0 lon1 (calcNL t0 rlat0 rlat1)) (calcNi t0 (calcNL t0 rlat0 rlat1)) +
      (if t0 then lon0 else lon1))

/-- The decoded longitude of `calcGlobal`: 360 subtracted when
`coord[1] ≥ 180`. -/
def calcLonAdj (t0 isAirborne : Bool) (lon0 lon1 rlat0 rlat1 : ℚ) : ℚ :=
  if calcLonRaw t0 isAirborne lon0 lon1 rlat0 rlat1 ≥ 180 then
    calcLonRaw t0 isAirborne lon0 lon1 rlat0 rlat1 - 360
  else calcLonRaw t0 isAirborne lon0 lon1 rlat0 rlat1

/-- The surface candidate wrap of `calcGlobal`: candidates above 180 drop
by 360, candidates below −180 rise by 360. -/
def wrapLon (x : ℚ) : ℚ := if x > 180 then x - 360 else if x < -180 then x + 360 else x

/-- The surface latitude clamp of `calcGlobal`: candidates outside
[−90, 90] are clamped to the nearest bound. -/
def clampLat (x : ℚ) : ℚ := if x < -90 then -90 else if x > 90 then 90 else x

/-- The longitude candidate deltas `-360, -270, ..., 360` of `calcGlobal`. -/
def lonDeltas : List ℚ := [-360, -270, -180, -90, 0, 90, 180, 270, 360]

/-- The latitude candidate deltas `-180, -90, 0, 90, 180` of `calcGlobal`. -/
def latDeltas : List ℚ := [-180, -90, 0, 90, 180]

/-- The candidate-selection loop of `calcGlobal`: runs through the list
keeping the candidate with the strictly smallest `f`-value so far. -/
def selectMin (f : ℚ → ℚ) : ℚ → ℚ → List ℚ → ℚ
  | best, _, [] => best
  | best, bestD, c :: rest =>
    if f c < bestD then selectMin f c (f c) rest else selectMin f best bestD rest

/-- Candidate selection seeded with the head of the list, as in
`closest := candidates[0]; minDiff := f(closest)`. -/
def pickClosest (f : ℚ → ℚ) : List ℚ → ℚ
  | [] => 0
  | c :: rest => selectMin f c (f c) rest

/-- `calcGlobal` of the adsb package.  `cosDeg` abstracts
`fun x => math.Cos(x * math.Pi / 180)`. -/
def calcGlobal (cosDeg : ℚ → ℚ) (t0 : Bool) (lon0 lon1 rlat0 rlat1 : ℚ)
    (isAirborne : Bool) (referenceLat referenceLon : Option ℚ) : List ℚ :=
  let lat := if t0 then rlat0 else rlat1
  let lon := calcLonAdj t0 isAirborne lon0 lon1 rlat0 rlat1
  if isAirborne then [lat, lon]
  else
    match referenceLat, referenceLon with
    | some rLat, some rLon =>
      let lonSel := pickClosest (fun c => |(rLon - c) * cosDeg rLat|)
        (lonDeltas.map (fun d => wrapLon (lon + d)))
      let latSel := pickClosest (fun c => |rLat - c|)
        (latDeltas.map (fun d => clampLat (lat + d)))
      [latSel, lonSel]
    | _, _ => []

/-- The body of `DecodeGlobalPosition` once both arguments are present:
the Nb and F validations, the `rlat0`/`rlat1` computation, the
latitude-boundary check, and the hand-off to `calcGlobal`. -/
def decodeGlobalCore (cosDeg : ℚ → ℚ) (m1 m2 : CPR) (isAirBorne : Bool)
    (referenceLat referenceLon : Option ℚ) : Except String (List ℚ) :=
  if m1.Nb ≠ m2.Nb then .error "bit encoding must be equal"
  else if m1.F = m2.F then .error "format must be different"
  else if cprNL (globalRlat0 isAirBorne (globalFrames m1 m2).lat0 (globalFrames m1 m2).lat1) ≠
      cprNL (globalRlat1 isAirBorne (globalFrames m1 m2).lat0 (globalFrames m1 m2).lat1) then
    .error "positions cross latitude boundary"
  else
    .ok (calcGlobal cosDeg (globalFrames m1 m2).t0 (globalFrames m1 m2).lon0
      (globalFrames m1 m2).lon1
      (globalRlat0 isAirBorne (globalFrames m1 m2).lat0 (globalFrames m1 m2).lat1)
      (globalRlat1 isAirBorne (globalFrames m1 m2).lat0 (globalFrames m1 m2).lat1)
      isAirBorne referenceLat referenceLon)

/-- `DecodeGlobalPosition` of the adsb package (the `c1 == nil || c2 ==
nil` check, then `decodeGlobalCore`). -/
def DecodeGlobalPosition (cosDeg : ℚ → ℚ) (c1 c2 : Option CPR) (isAirBorne : Bool)
    (referenceLat referenceLon : Option ℚ) : Except String (List ℚ) :=
  match c1, c2 with
  | some m1, some m2 => decodeGlobalCore cosDeg m1 m2 isAirBorne referenceLat referenceLon
  | _, _ => .error "incomplete arguments"

/-- A constant stand-in for the abstracted cosine, used only at inputs
where the decoded path never consults it (airborne decoding) or where any
value gives the same selection. -/
def cosDeg0 : ℚ → ℚ := fun _ => 1

/-- Error values of the adsb package, by kind: `ErrNotAvailable`-wrapped
errors, the `ErrUnsupported` downlink-format error (carrying the DF), and
the `RawMessage` length failure. -/
inductive AErr where
  | notAvailable (s : String)
  | unsupported (df : ℕ)
  | badLength (n : ℕ)
deriving DecidableEq

/-- The `RawMessage` struct: the enclosed 56- or 112-bit Mode S message
as a byte list.  (The `raw.go` source is not part of the given sources;
the accessors below are modelled from the spec.) -/
structure RawMessage where
  data : List ℕ

/-- Modelled from the spec: `Bit(n)` is 1-based, MSB first, over the
whole payload. -/
def RawMessage.bit (r : RawMessage) (n : ℕ) : ℕ :=
  (r.data.getD ((n - 1) / 8) 0 >>> (7 - (n - 1) % 8)) % 2

/-- Modelled from the spec: `Bits(a, b)` assembles bits `a..b` inclusive,
MSB at `a`. -/
def RawMessage.bits (r : RawMessage) (a b : ℕ) : ℕ :=
  (List.range (b + 1 - a)).foldl (fun acc i => 2 * acc + r.bit (a + i)) 0

/-- Modelled from the spec: the DF accessor reads bits 1..5. -/
def RawMessage.DF (r : RawMessage) : ℕ := r.bits 1 5

/-- Modelled from the spec: the TC accessor reads bits 33..37 (the
`Message` methods below only consult it after establishing DF 17/18). -/
def RawMessage.TC (r : RawMessage) : ℕ := r.bits 33 37

/-- Modelled from the spec: `RawMessage.UnmarshalBinary` accepts exactly
7 or 14 bytes, anything else is a deserialization failure. -/
def RawMessage.unmarshalBinary (data : List ℕ) : Except AErr RawMessage :=
  if data.length = 7 ∨ data.length = 14 then .ok ⟨data⟩
  else .error (.badLength data.length)

/-- The `Message` struct: a wrapper constraining `RawMessage` to the
accepted downlink formats. -/
structure Message where
  raw : RawMessage

/-- `Message.Raw`: the underlying `RawMessage`. -/
def Message.Raw (m : Message) : RawMessage := m.raw

/-- The accepted downlink-format set of `validateRaw`. -/
def acceptedDF : List ℕ := [0, 4, 5, 11, 16, 17, 18, 20, 21, 24]

/-- `validateRaw` of the adsb package: any DF outside the accepted set
yields the `ErrUnsupported` downlink-format error. -/
def validateRaw (m : Message) : Option AErr :=
  if m.raw.DF ∈ acceptedDF then none else some (.unsupported m.raw.DF)

/-- `Message.UnmarshalBinary` on a fresh `Message`: the data is stored in
the `RawMessage` first, and a `validateRaw` failure still leaves that
`RawMessage` in place (the Go doc comment: the data was successfully
unmarshalled and `Raw()` still returns it). -/
def Message.unmarshalBinary (data : List ℕ) : Message × Option AErr :=
  match RawMessage.unmarshalBinary data with
  | .error e => (⟨⟨[]⟩⟩, some e)
  | .ok r => (⟨r⟩, validateRaw ⟨r⟩)

/-- `KNOT_TO_MPS` of the adsb package. -/
def KNOT_TO_MPS : ℚ := 0.514444444

/-- `FEET_PER_MIN_TO_MPS` of the adsb package. -/
def FEET_PER_MIN_TO_MPS : ℚ := 0.00508

/-- `decodeGroundSpeed` of the adsb package: the piecewise movement
table, in knots. -/
def decodeGroundSpeed (movement : ℕ) : Except AErr ℚ :=
  if movement = 0 then .error (.notAvailable "speed not available")
  else if movement = 1 then .ok 0
  else if 2 ≤ movement ∧ movement ≤ 8 then .ok (0.125 + 0.125 * ((movement : ℚ) - 2))
  else if 9 ≤ movement ∧ movement ≤ 12 then .ok (1.0 + 0.25 * ((movement : ℚ) - 9))
  else if 13 ≤ movement ∧ movement ≤ 38 then .ok (2.0 + 0.5 * ((movement : ℚ) - 13))
  else if 39 ≤ movement ∧ movement ≤ 93 then .ok (15.0 + 1.0 * ((movement : ℚ) - 39))
  else if 94 ≤ movement ∧ movement ≤ 108 then .ok (70.0 + 2.0 * ((movement : ℚ) - 94))
  else if 109 ≤ movement ∧ movement ≤ 123 then .ok (100.0 + 5.0 * ((movement : ℚ) - 109))
  else if movement = 124 then .ok 175.0
  else .error (.notAvailable "invalid movement value")

/-- `Message.SurfaceSpeed` of the adsb package: velocity (m/s, converted
from knots) and track angle (degrees) from a DF 17/18 surface-position
message. -/
def Message.SurfaceSpeed (m : Message) : Except AErr (ℚ × ℚ) :=
  if m.raw.DF ≠ 17 ∧ m.raw.DF ≠ 18 then .error (.notAvailable "not a DF 17/18 packet")
  else if m.raw.TC < 5 ∨ m.raw.TC > 8 then .error (.notAvailable "surface speed not available")
  else if m.raw.data.length < 14 then .error (.notAvailable "invalid msg len")
  else
    match decodeGroundSpeed (m.raw.bits 38 44) with
    | .error e => .error e
    | .ok velocity =>
      if m.raw.bit 45 ≠ 1 then .error (.notAvailable "ground track not available")
      else .ok (velocity * KNOT_TO_MPS, (m.raw.bits 46 52 : ℚ) * (360.0 / 128.0))

/-- `Message.VerticalSpeed` of the adsb package: vertical rate in m/s
from a DF 17/18 TC 19 message. -/
def Message.VerticalSpeed (m : Message) : Except AErr ℚ :=
  if m.raw.DF ≠ 17 ∧ m.raw.DF ≠ 18 then .error (.notAvailable "not a DF 17/18 packet")
  else if m.raw.TC ≠ 19 then .error (.notAvailable "vertical rate not available")
  else if m.raw.data.length < 14 then .error (.notAvailable "invalid msg len")
  else if m.raw.bits 70 78 = 0 then .error (.notAvailable "vertical rate not available")
  else
    .ok (((if m.raw.bit 69 = 1 then -(64 * ((m.raw.bits 70 78 : ℤ) - 1))
      else 64 * ((m.raw.bits 70 78 : ℤ) - 1)) : ℚ) * FEET_PER_MIN_TO_MPS)

/-! ## Claim-side definitions

The following three definitions follow the wording of the specification
(for comparison against `calcGlobal`, which is translated from the
code).  The even-frame-later description agrees with the code; the
odd-frame-later description differs from the code in the `m` formula. -/

/-- The odd-frame-later airborne global decode exactly as the spec words
it: the decoded latitude is `rlat1`, `nl = NL(rlat1) - 1`,
`ni = max(nl, 1)`, `Dlon = 360/ni`, `m = round(lon0*(nl-1) - lon1*nl)`
with that decremented `nl`, and `lon = Dlon*(mod(m, ni) + lon1)` with 360
subtracted when `lon ≥ 180`. -/
def oddLaterClaimCoord (lon0 lon1 rlat1 : ℚ) : List ℚ :=
  let nl : ℚ := (cprNL rlat1 : ℚ) - 1
  let ni : ℚ := max nl 1
  let dlon : ℚ := 360 / ni
  let m : ℚ := goRound (lon0 * (nl - 1) - lon1 * nl)
  let lon : ℚ := dlon * (modq m ni + lon1)
  [rlat1, if lon ≥ 180 then lon - 360 else lon]

/-- The odd-frame-later airborne global decode as the code computes it
(the amended claim): `ni = max(NL(rlat1) - 1, 1)` but `m` uses the
un-decremented `NL(rlat1)`. -/
def oddLaterAmendedCoord (lon0 lon1 rlat1 : ℚ) : List ℚ :=
  let nl : ℚ := (cprNL rlat1 : ℚ)
  let ni : ℚ := max (nl - 1) 1
  let dlon : ℚ := 360 / ni
  let m : ℚ := goRound (lon0 * (nl - 1) - lon1 * nl)
  let lon : ℚ := dlon * (modq m ni + lon1)
  [rlat1, if lon ≥ 180 then lon - 360 else lon]

/-- The even-frame-later airborne global decode as both the spec and the
code state it: latitude `rlat0`, `nl = NL(rlat0)`, `ni = max(nl, 1)`,
`Dlon = 360/ni`, `m = round(lon0*(nl-1) - lon1*nl)`,
`lon = Dlon*(mod(m, ni) + lon0)` with the 180-wrap. -/
def evenLaterClaimCoord (lon0 lon1 rlat0 : ℚ) : List ℚ :=
  let nl : ℚ := (cprNL rlat0 : ℚ)
  let ni : ℚ := max nl 1
  let dlon : ℚ := 360 / ni
  let m : ℚ := goRound (lon0 * (nl - 1) - lon1 * nl)
  let lon : ℚ := dlon * (modq m ni + lon0)
  [rlat0, if lon ≥ 180 then lon - 360 else lon]

/-- The surface-movement table exactly as the spec words it, in knots
(`none` = not available). -/
def specMovementKt (movement : ℕ) : Option ℚ :=
  if movement = 0 ∨ 125 ≤ movement then none
  else if movement = 1 then some 0
  else if movement ≤ 8 then some (0.125 + 0.125 * ((movement : ℚ) - 2))
  else if movement ≤ 12 then some (1.0 + 0.25 * ((movement : ℚ) - 9))
  else if movement ≤ 38 then some (2.0 + 0.5 * ((movement : ℚ) - 13))
  else if movement ≤ 93 then some (15 + ((movement : ℚ) - 39))
  else if movement ≤ 108 then some (70 + 2 * ((movement : ℚ) - 94))
  else if movement ≤ 123 then some (100 + 5 * ((movement : ℚ) - 109))
  else some 175

/-- The value component of an `Except`, for comparing fallible results. -/
def exceptValue : Except AErr ℚ → Option ℚ
  | .ok v => some v
  | .error _ => none

/-! ## Helper lemmas -/

theorem cprNLFrom_pos (x : ℚ) (n : ℕ) : 1 ≤ cprNLFrom x n := by
  induction n using Nat.strong_induction_on with
  | _ n ih =>
    match n with
    | 0 => simp [cprNLFrom]
    | 1 => simp [cprNLFrom]
    | n + 2 =>
      simp only [cprNLFrom]
      split
      · omega
      · exact ih (n + 1) (by omega)

theorem cprNLFrom_le (x : ℚ) (n : ℕ) : cprNLFrom x n ≤ max n 1 := by
  induction n using Nat.strong_induction_on with
  | _ n ih =>
    match n with
    | 0 => simp [cprNLFrom]
    | 1 => simp [cprNLFrom]
    | n + 2 =>
      simp only [cprNLFrom]
      split
      · omega
      · have := ih (n + 1) (by omega)
        omega

theorem cprNLFrom_anti {x y : ℚ} (hxy : x ≤ y) (n : ℕ) :
    cprNLFrom y n ≤ cprNLFrom x n := by
  induction n using Nat.strong_induction_on with
  | _ n ih =>
    match n with
    | 0 => simp [cprNLFrom]
    | 1 => simp [cprNLFrom]
    | n + 2 =>
      by_cases hx : x < nlTbl (n + 2)
      · have hb := cprNLFrom_le y (n + 1)
        simp only [cprNLFrom, if_pos hx]
        split
        · omega
        · omega
      · have hy : ¬ y < nlTbl (n + 2) := fun h => hx (lt_of_le_of_lt hxy h)
        simp only [cprNLFrom, if_neg hx, if_neg hy]
        exact ih (n + 1) (by omega)

theorem cprNL_pos (x : ℚ) : 1 ≤ cprNL x := cprNLFrom_pos _ _

theorem cprNL_le (x : ℚ) : cprNL x ≤ 59 := by
  have := cprNLFrom_le |x| 59
  unfold cprNL
  omega

theorem cprNL_anti {x y : ℚ} (h : |x| ≤ |y|) : cprNL y ≤ cprNL x :=
  cprNLFrom_anti h 59

theorem cprNLFFrom_pos (x : GoF) (n : ℕ) : 1 ≤ cprNLFFrom x n := by
  induction n using Nat.strong_induction_on with
  | _ n ih =>
    match n with
    | 0 => simp [cprNLFFrom]
    | 1 => simp [cprNLFFrom]
    | n + 2 =>
      simp only [cprNLFFrom]
      split
      · omega
      · exact ih (n + 1) (by omega)

theorem cprNLFFrom_le (x : GoF) (n : ℕ) : cprNLFFrom x n ≤ max n 1 := by
  induction n using Nat.strong_induction_on with
  | _ n ih =>
    match n with
    | 0 => simp [cprNLFFrom]
    | 1 => simp [cprNLFFrom]
    | n + 2 =>
      simp only [cprNLFFrom]
      split
      · omega
      · have := ih (n + 1) (by omega)
        omega

theorem GoF.abs_neg (x : GoF) : x.neg.abs = x.abs := by
  cases x with
  | nan => rfl
  | inf s => rfl
  | fin q => simp [GoF.neg, GoF.abs, abs_neg]

theorem modq_nonneg (a : ℚ) {b : ℚ} (hb : 0 < b) : 0 ≤ modq a b := by
  have h1 : ((⌊a / b⌋ : ℚ)) ≤ a / b := Int.floor_le _
  have h2 : b * ((⌊a / b⌋ : ℚ)) ≤ b * (a / b) := mul_le_mul_of_nonneg_left h1 hb.le
  rw [mul_div_cancel₀ a hb.ne'] at h2
  unfold modq floorq
  linarith

theorem modq_lt (a : ℚ) {b : ℚ} (hb : 0 < b) : modq a b < b := by
  have h1 : a / b < (⌊a / b⌋ : ℚ) + 1 := Int.lt_floor_add_one _
  have h2 : b * (a / b) < b * ((⌊a / b⌋ : ℚ) + 1) := by
    exact mul_lt_mul_of_pos_left h1 hb
  rw [mul_div_cancel₀ a hb.ne'] at h2
  have h3 : b * ((⌊a / b⌋ : ℚ) + 1) = b * ((⌊a / b⌋ : ℚ)) + b := by ring
  unfold modq floorq
  linarith

theorem modq_intCast (a : ℤ) (n : ℕ) : modq (a : ℚ) (n : ℚ) = ((a % (n : ℤ) : ℤ) : ℚ) := by
  unfold modq floorq
  rw [Rat.floor_intCast_div_natCast, Int.emod_def]
  push_cast
  ring

theorem modq_int_le (a : ℤ) (n : ℕ) (hn : 0 < n) : modq (a : ℚ) (n : ℚ) ≤ (n : ℚ) - 1 := by
  rw [modq_intCast a n]
  have h : a % (n : ℤ) < (n : ℤ) := Int.emod_lt_of_pos a (by exact_mod_cast hn)
  have h2 : a % (n : ℤ) ≤ (n : ℤ) - 1 := by omega
  exact_mod_cast h2

theorem selectMin_mem (f : ℚ → ℚ) (l : List ℚ) : ∀ best bestD,
    selectMin f best bestD l = best ∨ selectMin f best bestD l ∈ l := by
  induction l with
  | nil => intro best bestD; left; rfl
  | cons c rest ih =>
    intro best bestD
    simp only [selectMin]
    split
    · rcases ih c (f c) with h | h
      · right
        rw [h]
        exact List.mem_cons_self _ _
      · right
        exact List.mem_cons_of_mem _ h
    · rcases ih best bestD with h | h
      · left
        exact h
      · right
        exact List.mem_cons_of_mem _ h

theorem pickClosest_mem (f : ℚ → ℚ) (c : ℚ) (l : List ℚ) :
    pickClosest f (c :: l) ∈ c :: l := by
  simp only [pickClosest]
  rcases selectMin_mem f l c (f c) with h | h
  · rw [h]
    exact List.mem_cons_self _ _
  · exact List.mem_cons_of_mem _ h

theorem wrapLon_bounds {x : ℚ} (h1 : -360 ≤ x) (h2 : x < 450) :
    -180 ≤ wrapLon x ∧ wrapLon x ≤ 180 := by
  unfold wrapLon
  split_ifs <;> constructor <;> linarith

theorem clampLat_bounds (x : ℚ) : -90 ≤ clampLat x ∧ clampLat x ≤ 90 := by
  unfold clampLat
  split_ifs <;> constructor <;> linarith

theorem cprFrac_mem {n : ℕ} (h : n < 131072) : 0 ≤ cprFrac n ∧ cprFrac n < 1 := by
  unfold cprFrac
  constructor
  · positivity
  · rw [div_lt_one (by norm_num)]
    exact_mod_cast h

theorem calcNL_cast (t0 : Bool) (rlat0 rlat1 : ℚ) :
    ∃ k : ℕ, 1 ≤ k ∧ calcNL t0 rlat0 rlat1 = (k : ℚ) := by
  cases t0
  · exact ⟨cprNL rlat1, cprNL_pos _, rfl⟩
  · exact ⟨cprNL rlat0, cprNL_pos _, rfl⟩

theorem calcNi_cast (t0 : Bool) (k : ℕ) (hk : 1 ≤ k) :
    ∃ n : ℕ, 1 ≤ n ∧ calcNi t0 (k : ℚ) = (n : ℚ) := by
  unfold calcNi
  cases t0
  · by_cases h : (k : ℚ) - 1 ≤ 1
    · exact ⟨1, le_refl 1, by simp [h]⟩
    · refine ⟨k - 1, ?_, ?_⟩
      · have h2 : (2 : ℚ) < (k : ℚ) := by linarith
        have h3 : (2 : ℕ) < k := by exact_mod_cast h2
        omega
      · rw [if_neg (by simp), if_neg h]
        push_cast [Nat.cast_sub hk]
        ring
  · by_cases h : (k : ℚ) ≤ 1
    · exact ⟨1, le_refl 1, by simp [h]⟩
    · refine ⟨k, hk, ?_⟩
      rw [if_pos rfl, if_neg h]

theorem calcNi_false_max (nl : ℚ) : calcNi false nl = max (nl - 1) 1 := by
  unfold calcNi
  rw [if_neg (by simp)]
  split_ifs with h
  · exact (max_eq_right h).symm
  · exact (max_eq_left (le_of_not_le h)).symm

theorem calcNi_true_max (nl : ℚ) : calcNi true nl = max nl 1 := by
  unfold calcNi
  rw [if_pos rfl]
  split_ifs with h
  · exact (max_eq_right h).symm
  · exact (max_eq_left (le_of_not_le h)).symm

theorem calcLonRaw_bounds (t0 isAirborne : Bool) {lon0 lon1 : ℚ} (rlat0 rlat1 : ℚ)
    (h00 : 0 ≤ lon0) (h01 : lon0 < 1) (h10 : 0 ≤ lon1) (h11 : lon1 < 1) :
    0 ≤ calcLonRaw t0 isAirborne lon0 lon1 rlat0 rlat1 ∧
      calcLonRaw t0 isAirborne lon0 lon1 rlat0 rlat1 < (if isAirborne then 360 else 90) := by
  obtain ⟨k, hk1, hkE⟩ := calcNL_cast t0 rlat0 rlat1
  obtain ⟨n, hn1, hnE⟩ := calcNi_cast t0 k hk1
  unfold calcLonRaw
  rw [hkE, hnE]
  have hmE : calcM lon0 lon1 (k : ℚ) =
      ((goRoundZ (lon0 * ((k : ℚ) - 1) - lon1 * (k : ℚ)) : ℤ) : ℚ) := rfl
  rw [hmE]
  have hnpos : (0 : ℚ) < (n : ℚ) := by exact_mod_cast hn1
  have hmod0 : 0 ≤ modq ((goRoundZ (lon0 * ((k : ℚ) - 1) - lon1 * (k : ℚ)) : ℤ) : ℚ) (n : ℚ) :=
    modq_nonneg _ hnpos
  have hmod1 : modq ((goRoundZ (lon0 * ((k : ℚ) - 1) - lon1 * (k : ℚ)) : ℤ) : ℚ) (n : ℚ) ≤
      (n : ℚ) - 1 := modq_int_le _ n hn1
  have hlonc0 : 0 ≤ (if t0 then lon0 else lon1) := by split <;> assumption
  have hlonc1 : (if t0 then lon0 else lon1) < 1 := by split <;> assumption
  set q := modq ((goRoundZ (lon0 * ((k : ℚ) - 1) - lon1 * (k : ℚ)) : ℤ) : ℚ) (n : ℚ) with hq
  have hsum0 : 0 ≤ q + (if t0 then lon0 else lon1) := by linarith
  have hsum1 : q + (if t0 then lon0 else lon1) < (n : ℚ) := by linarith
  unfold calcDlon
  split
  · constructor
    · have : (0 : ℚ) ≤ 360 / (n : ℚ) := by positivity
      exact mul_nonneg this hsum0
    · have h1 : 360 / (n : ℚ) * (q + (if t0 then lon0 else lon1)) <
          360 / (n : ℚ) * (n : ℚ) := by
        exact mul_lt_mul_of_pos_left hsum1 (by positivity)
      have h2 : 360 / (n : ℚ) * (n : ℚ) = 360 := by field_simp
      linarith
  · constructor
    · have : (0 : ℚ) ≤ 90 / (n : ℚ) := by positivity
      exact mul_nonneg this hsum0
    · have h1 : 90 / (n : ℚ) * (q + (if t0 then lon0 else lon1)) <
          90 / (n : ℚ) * (n : ℚ) := by
        exact mul_lt_mul_of_pos_left hsum1 (by positivity)
      have h2 : 90 / (n : ℚ) * (n : ℚ) = 90 := by field_simp
      linarith

theorem calcLonAdj_bounds_air (t0 : Bool) {lon0 lon1 : ℚ} (rlat0 rlat1 : ℚ)
    (h00 : 0 ≤ lon0) (h01 : lon0 < 1) (h10 : 0 ≤ lon1) (h11 : lon1 < 1) :
    -180 ≤ calcLonAdj t0 true lon0 lon1 rlat0 rlat1 ∧
      calcLonAdj t0 true lon0 lon1 rlat0 rlat1 < 180 := by
  obtain ⟨hr0, hr1⟩ := calcLonRaw_bounds t0 true rlat0 rlat1 h00 h01 h10 h11
  rw [if_pos rfl] at hr1
  unfold calcLonAdj
  split_ifs with h <;> constructor <;> linarith

theorem calcLonAdj_bounds_surf (t0 : Bool) {lon0 lon1 : ℚ} (rlat0 rlat1 : ℚ)
    (h00 : 0 ≤ lon0) (h01 : lon0 < 1) (h10 : 0 ≤ lon1) (h11 : lon1 < 1) :
    0 ≤ calcLonAdj t0 false lon0 lon1 rlat0 rlat1 ∧
      calcLonAdj t0 false lon0 lon1 rlat0 rlat1 < 90 := by
  obtain ⟨hr0, hr1⟩ := calcLonRaw_bounds t0 false rlat0 rlat1 h00 h01 h10 h11
  rw [if_neg (by simp)] at hr1
  unfold calcLonAdj
  split_ifs with h <;> constructor <;> linarith

theorem globalJ_intCast (lat0 lat1 : ℚ) : ∃ z : ℤ, globalJ lat0 lat1 = (z : ℚ) :=
  ⟨⌊59 * lat0 - 60 * lat1 + 0.5⌋, rfl⟩

theorem postAdjust270_bounds {r : ℚ} (h0 : 0 ≤ r) (h1 : r < 630) :
    -90 ≤ postAdjust270 r ∧ postAdjust270 r < 270 := by
  unfold postAdjust270
  split_ifs with h <;> constructor <;> linarith

theorem globalRlat0_bounds (isAirBorne : Bool) {lat0 : ℚ} (lat1 : ℚ)
    (h0 : 0 ≤ lat0) (h1 : lat0 < 1) :
    -90 ≤ globalRlat0 isAirBorne lat0 lat1 ∧ globalRlat0 isAirBorne lat0 lat1 < 270 := by
  have hm0 : 0 ≤ modq (globalJ lat0 lat1) 60 := modq_nonneg _ (by norm_num)
  have hm1 : modq (globalJ lat0 lat1) 60 < 60 := modq_lt _ (by norm_num)
  unfold globalRlat0 globalDlat0
  cases isAirBorne
  · rw [if_neg (by simp)]
    exact postAdjust270_bounds (by nlinarith) (by nlinarith)
  · rw [if_pos rfl]
    exact postAdjust270_bounds (by nlinarith) (by nlinarith)

theorem globalRlat1_bounds (isAirBorne : Bool) (lat0 : ℚ) {lat1 : ℚ}
    (h0 : 0 ≤ lat1) (h1 : lat1 < 1) :
    -90 ≤ globalRlat1 isAirBorne lat0 lat1 ∧ globalRlat1 isAirBorne lat0 lat1 < 270 := by
  have hm0 : 0 ≤ modq (globalJ lat0 lat1) 59 := modq_nonneg _ (by norm_num)
  have hm1 : modq (globalJ lat0 lat1) 59 < 59 := modq_lt _ (by norm_num)
  unfold globalRlat1 globalDlat1
  cases isAirBorne
  · rw [if_neg (by simp)]
    exact postAdjust270_bounds (by nlinarith) (by nlinarith)
  · rw [if_pos rfl]
    exact postAdjust270_bounds (by nlinarith) (by nlinarith)

theorem globalFrames_mem (m1 m2 : CPR) (h1 : m1.Lat < 131072) (h2 : m1.Lon < 131072)
    (h3 : m2.Lat < 131072) (h4 : m2.Lon < 131072) :
    (0 ≤ (globalFrames m1 m2).lat0 ∧ (globalFrames m1 m2).lat0 < 1) ∧
      (0 ≤ (globalFrames m1 m2).lon0 ∧ (globalFrames m1 m2).lon0 < 1) ∧
      (0 ≤ (globalFrames m1 m2).lat1 ∧ (globalFrames m1 m2).lat1 < 1) ∧
      (0 ≤ (globalFrames m1 m2).lon1 ∧ (globalFrames m1 m2).lon1 < 1) := by
  unfold globalFrames
  split
  · exact ⟨cprFrac_mem h1, cprFrac_mem h2, cprFrac_mem h3, cprFrac_mem h4⟩
  · exact ⟨cprFrac_mem h3, cprFrac_mem h4, cprFrac_mem h1, cprFrac_mem h2⟩

theorem calcGlobal_bounds (cosDeg : ℚ → ℚ) (t0 : Bool) {lon0 lon1 : ℚ}
    (rlat0 rlat1 : ℚ) (isAirborne : Bool) (rLat rLon : Option ℚ) {la lo : ℚ}
    (h00 : 0 ≤ lon0) (h01 : lon0 < 1) (h10 : 0 ≤ lon1) (h11 : lon1 < 1)
    (hr00 : -90 ≤ rlat0) (hr01 : rlat0 < 270) (hr10 : -90 ≤ rlat1) (hr11 : rlat1 < 270)
    (hEq : calcGlobal cosDeg t0 lon0 lon1 rlat0 rlat1 isAirborne rLat rLon = [la, lo]) :
    -90 ≤ la ∧ la < 270 ∧ -180 ≤ lo ∧ lo ≤ 180 := by
  unfold calcGlobal at hEq
  cases isAirborne
  · rcases rLat with _ | a
    · simp at hEq
    rcases rLon with _ | b
    · simp at hEq
    rw [if_neg (by simp)] at hEq
    simp only [List.cons.injEq, and_true] at hEq
    obtain ⟨hla, hlo⟩ := hEq
    constructor
    · rw [← hla]
      have hmem := pickClosest_mem (fun c => |a - c|)
        (clampLat ((if t0 then rlat0 else rlat1) + -180))
        ((List.map (fun d => clampLat ((if t0 then rlat0 else rlat1) + d)) [-90, 0, 90, 180]))
      have hmem2 : pickClosest (fun c => |a - c|)
          (latDeltas.map (fun d => clampLat ((if t0 then rlat0 else rlat1) + d))) ∈
          latDeltas.map (fun d => clampLat ((if t0 then rlat0 else rlat1) + d)) := by
        simpa [latDeltas] using hmem
      rw [List.mem_map] at hmem2
      obtain ⟨d, _, hd⟩ := hmem2
      rw [← hd]
      exact (clampLat_bounds _).1
    constructor
    · rw [← hla]
      have hmem := pickClosest_mem (fun c => |a - c|)
        (clampLat ((if t0 then rlat0 else rlat1) + -180))
        ((List.map (fun d => clampLat ((if t0 then rlat0 else rlat1) + d)) [-90, 0, 90, 180]))
      have hmem2 : pickClosest (fun c => |a - c|)
          (latDeltas.map (fun d => clampLat ((if t0 then rlat0 else rlat1) + d))) ∈
          latDeltas.map (fun d => clampLat ((if t0 then rlat0 else rlat1) + d)) := by
        simpa [latDeltas] using hmem
      rw [List.mem_map] at hmem2
      obtain ⟨d, _, hd⟩ := hmem2
      rw [← hd]
      have := (clampLat_bounds ((if t0 then rlat0 else rlat1) + d)).2
      linarith
    · rw [← hlo]
      obtain ⟨hs0, hs1⟩ := calcLonAdj_bounds_surf t0 rlat0 rlat1 h00 h01 h10 h11
      set base := calcLonAdj t0 false lon0 lon1 rlat0 rlat1 with hbase
      have hmem := pickClosest_mem (fun c => |(b - c) * cosDeg a|)
        (wrapLon (base + -360))
        ((List.map (fun d => wrapLon (base + d)) [-270, -180, -90, 0, 90, 180, 270, 360]))
      have hmem2 : pickClosest (fun c => |(b - c) * cosDeg a|)
          (lonDeltas.map (fun d => wrapLon (base + d))) ∈
          lonDeltas.map (fun d => wrapLon (base + d)) := by
        simpa [lonDeltas] using hmem
      rw [List.mem_map] at hmem2
      obtain ⟨d, hdmem, hd⟩ := hmem2
      rw [← hd]
      have hdb : -360 ≤ base + d ∧ base + d < 450 := by
        simp only [lonDeltas, List.mem_cons, List.not_mem_nil, or_false] at hdmem
        rcases hdmem with h | h | h | h | h | h | h | h | h <;> subst h <;>
          constructor <;> linarith
      exact wrapLon_bounds hdb.1 hdb.2
  · rw [if_pos rfl] at hEq
    simp only [List.cons.injEq, and_true] at hEq
    obtain ⟨hla, hlo⟩ := hEq
    refine ⟨?_, ?_, ?_, ?_⟩
    · rw [← hla]; split <;> assumption
    · rw [← hla]; split <;> assumption
    · rw [← hlo]
      exact (calcLonAdj_bounds_air t0 rlat0 rlat1 h00 h01 h10 h11).1
    · rw [← hlo]
      have := (calcLonAdj_bounds_air t0 rlat0 rlat1 h00 h01 h10 h11).2
      linarith

theorem calcGlobal_air_odd (cosDeg : ℚ → ℚ) (lon0 lon1 rlat0 rlat1 : ℚ)
    (rLat rLon : Option ℚ) :
    calcGlobal cosDeg false lon0 lon1 rlat0 rlat1 true rLat rLon =
      oddLaterAmendedCoord lon0 lon1 rlat1 := by
  have h : calcNi false (calcNL false rlat0 rlat1) = max ((cprNL rlat1 : ℚ) - 1) 1 :=
    calcNi_false_max _
  show [rlat1, calcLonAdj false true lon0 lon1 rlat0 rlat1] = _
  unfold calcLonAdj calcLonRaw oddLaterAmendedCoord
  rw [h]
  rfl

theorem calcGlobal_air_even (cosDeg : ℚ → ℚ) (lon0 lon1 rlat0 rlat1 : ℚ)
    (rLat rLon : Option ℚ) :
    calcGlobal cosDeg true lon0 lon1 rlat0 rlat1 true rLat rLon =
      evenLaterClaimCoord lon0 lon1 rlat0 := by
  have h : calcNi true (calcNL true rlat0 rlat1) = max ((cprNL rlat0 : ℚ)) 1 :=
    calcNi_true_max _
  show [rlat0, calcLonAdj true true lon0 lon1 rlat0 rlat1] = _
  unfold calcLonAdj calcLonRaw evenLaterClaimCoord
  rw [h]
  rfl

/-! ## Claim theorems -/

/-- C1 (counterexample).  The claim says that when the odd frame is the
later of the pair, `nl = NL(rlat1) - 1` is used in the formula
`m = round(lon0*(nl-1) - lon1*nl)`.  The code computes `m` with the
un-decremented `NL(rlat1)`.  At `lon0 = 9/10`, `lon1 = 0`,
`rlat0 = rlat1 = 86` (where `NL = 3`), the code returns longitude 0
while the claimed formulas return longitude −180. -/
theorem C1_counterexample :
    calcGlobal cosDeg0 false (9/10) 0 86 86 true none none = [86, 0] ∧
      oddLaterClaimCoord (9/10) 0 86 = [86, -180] := by
  constructor
  · rfl
  · rfl

/-- C1 (amended).  In airborne global CPR decoding, when the odd frame
is the later of the pair the decoder uses `rlat1` as the decoded
latitude, `ni = max(NL(rlat1) - 1, 1)`, `Dlon = 360/ni`, and
`m = round(lon0*(NL(rlat1)-1) - lon1*NL(rlat1))` with the un-decremented
`NL(rlat1)` in the `m` formula, and returns
`lon = Dlon*(mod(m, ni) + lon1)` with 360 subtracted when `lon ≥ 180`;
when the even frame is later it uses `rlat0` with `nl = NL(rlat0)`,
`ni = max(nl, 1)`, and the same formulas with `lon0`. -/
theorem C1_global_later_frame_formulas (cosDeg : ℚ → ℚ) (lon0 lon1 rlat0 rlat1 : ℚ)
    (rLat rLon : Option ℚ) :
    calcGlobal cosDeg false lon0 lon1 rlat0 rlat1 true rLat rLon =
        oddLaterAmendedCoord lon0 lon1 rlat1 ∧
      calcGlobal cosDeg true lon0 lon1 rlat0 rlat1 true rLat rLon =
        evenLaterClaimCoord lon0 lon1 rlat0 :=
  ⟨calcGlobal_air_odd cosDeg lon0 lon1 rlat0 rlat1 rLat rLon,
    calcGlobal_air_even cosDeg lon0 lon1 rlat0 rlat1 rLat rLon⟩

/-- C2 (counterexample).  The claim has the two NL boundary values
swapped: the code satisfies `cprNL 10.47047 = 59`, not 58. -/
theorem C2_counterexample :
    ¬ (cprNL (10.47047 : ℚ) = 58 ∧ cprNL (10.47048 : ℚ) = 59) := by
  decide

/-- C2 (amended).  `10.47047` is still below the NL = 59 threshold
`10.4704713` of the table, so `cprNL 10.47047 = 59`, and `10.47048` is
just past it, so `cprNL 10.47048 = 58`. -/
theorem C2_nl_boundary :
    cprNL (10.47047 : ℚ) = 59 ∧ cprNL (10.47048 : ℚ) = 58 := by
  decide

/-- C3 (counterexample).  `cprNL 87` is 1, not 2: the scan returns the
first table entry strictly greater than the latitude, and the NL = 2
threshold is exactly 87. -/
theorem C3_counterexample : cprNL 87 = 1 ∧ ¬ cprNL 87 = 2 := by
  decide

/-- C3 (amended).  The NL lookup is monotonically non-increasing in the
absolute value of its argument, and `cprNL 0 = 59`, `cprNL 87 = 1`,
`cprNL 88 = 1`. -/
theorem C3_nl_monotone_and_values :
    (∀ x y : ℚ, |x| ≤ |y| → cprNL y ≤ cprNL x) ∧
      cprNL 0 = 59 ∧ cprNL 87 = 1 ∧ cprNL 88 = 1 := by
  refine ⟨fun x y h => cprNL_anti h, by decide, by decide, by decide⟩

/-- C3 (witness). -/
theorem C3_witness : |(3 : ℚ)| ≤ |(5 : ℚ)| ∧ cprNL 5 ≤ cprNL 3 :=
  ⟨by norm_num, C3_nl_monotone_and_values.1 3 5 (by norm_num)⟩

/-- C10.  On the float model (covering NaN and the infinities, against
which every IEEE comparison is false), the NL lookup always returns a
value in 1..59 and is invariant under negation of its argument. -/
theorem C10_nl_total_range_symmetric (x : GoF) :
    1 ≤ cprNLF x ∧ cprNLF x ≤ 59 ∧ cprNLF x.neg = cprNLF x := by
  refine ⟨cprNLFFrom_pos _ _, ?_, ?_⟩
  · have := cprNLFFrom_le x.abs 59
    unfold cprNLF
    omega
  · unfold cprNLF
    rw [GoF.abs_neg]

/-- C4 (counterexample).  The claim bounds the decoded latitude by
[−90, 90] and the longitude by (−180, 180].  An airborne pair whose
odd-later latitude lands in the NL = 1 zone decodes without error to
latitude 10800/59 ≈ 183.05, far outside [−90, 90]; and a pair in the
NL = 2 zone with `lon1 = 1/2` decodes without error to longitude exactly
−180, outside (−180, 180]. -/
theorem C4_counterexample :
    DecodeGlobalPosition cosDeg0 (some ⟨17, 0, 0, 65536, 0⟩) (some ⟨17, 0, 1, 0, 0⟩)
        true none none = Except.ok [10800/59, 0] ∧
      ¬ ((10800 : ℚ)/59 ≤ 90) ∧
      DecodeGlobalPosition cosDeg0 (some ⟨17, 0, 1, 27525, 65536⟩)
        (some ⟨17, 0, 0, 58982, 0⟩) true none none =
          Except.ok [2840985/32768, -180] ∧
      ¬ ((-180 : ℚ) > -180) := by
  refine ⟨rfl, by norm_num, rfl, by norm_num⟩

/-- C4 (amended).  For every pair of CPR messages (with 17-bit encoded
latitude and longitude fields) with different F for which global
decoding returns a two-element coordinate list without error, the
returned latitude lies within [−90, 270) and the returned longitude lies
within [−180, 180]. -/
theorem C4_global_decode_bounds (cosDeg : ℚ → ℚ) (m1 m2 : CPR) (isAirBorne : Bool)
    (rLat rLon : Option ℚ) (coord : List ℚ)
    (h1 : m1.Lat < 131072) (h2 : m1.Lon < 131072)
    (h3 : m2.Lat < 131072) (h4 : m2.Lon < 131072)
    (hok : DecodeGlobalPosition cosDeg (some m1) (some m2) isAirBorne rLat rLon =
      Except.ok coord) :
    ∀ la lo, coord = [la, lo] → -90 ≤ la ∧ la < 270 ∧ -180 ≤ lo ∧ lo ≤ 180 := by
  intro la lo hco
  subst hco
  have hok2 : decodeGlobalCore cosDeg m1 m2 isAirBorne rLat rLon = Except.ok [la, lo] := hok
  unfold decodeGlobalCore at hok2
  split_ifs at hok2
  rw [Except.ok.injEq] at hok2
  obtain ⟨⟨hA0, hA1⟩, ⟨hB0, hB1⟩, ⟨hC0, hC1⟩, ⟨hD0, hD1⟩⟩ :=
    globalFrames_mem m1 m2 h1 h2 h3 h4
  obtain ⟨hr00, hr01⟩ :=
    globalRlat0_bounds isAirBorne (globalFrames m1 m2).lat1 hA0 hA1
  obtain ⟨hr10, hr11⟩ :=
    globalRlat1_bounds isAirBorne (globalFrames m1 m2).lat0 hC0 hC1
  exact calcGlobal_bounds cosDeg (globalFrames m1 m2).t0 _ _ isAirBorne rLat rLon
    hB0 hB1 hD0 hD1 hr00 hr01 hr10 hr11 hok2

/-- C4 (witness). -/
theorem C4_witness :
    (-90 : ℚ) ≤ 10800/59 ∧ (10800 : ℚ)/59 < 270 ∧ (-180 : ℚ) ≤ 0 ∧ (0 : ℚ) ≤ 180 := by
  have h := C4_global_decode_bounds cosDeg0 ⟨17, 0, 0, 65536, 0⟩ ⟨17, 0, 1, 0, 0⟩
    true none none [10800/59, 0] (by norm_num) (by norm_num) (by norm_num) (by norm_num)
    (by rfl) (10800/59) 0 rfl
  exact h

/-- C5.  Global CPR decoding returns an error exactly when an argument
is missing, the two messages' Nb differ, their F flags coincide, or
`cprNL rlat0 ≠ cprNL rlat1` (the latitude-boundary crossing); and a
surface pair with no reference point that passes those checks returns an
empty coordinate list with no error. -/
theorem C5_global_error_conditions :
    (∀ (cosDeg : ℚ → ℚ) (c1 c2 : Option CPR) (isAirBorne : Bool) (rLat rLon : Option ℚ),
      (∃ e, DecodeGlobalPosition cosDeg c1 c2 isAirBorne rLat rLon = Except.error e) ↔
        (c1 = none ∨ c2 = none ∨ ∃ m1 m2, c1 = some m1 ∧ c2 = some m2 ∧
          (m1.Nb ≠ m2.Nb ∨ m1.F = m2.F ∨
            cprNL (globalRlat0 isAirBorne (globalFrames m1 m2).lat0 (globalFrames m1 m2).lat1) ≠
              cprNL (globalRlat1 isAirBorne (globalFrames m1 m2).lat0 (globalFrames m1 m2).lat1)))) ∧
    (∀ (cosDeg : ℚ → ℚ) (m1 m2 : CPR), m1.Nb = m2.Nb → m1.F ≠ m2.F →
      cprNL (globalRlat0 false (globalFrames m1 m2).lat0 (globalFrames m1 m2).lat1) =
        cprNL (globalRlat1 false (globalFrames m1 m2).lat0 (globalFrames m1 m2).lat1) →
      DecodeGlobalPosition cosDeg (some m1) (some m2) false none none = Except.ok []) := by
  constructor
  · intro cosDeg c1 c2 isAirBorne rLat rLon
    rcases c1 with _ | m1
    · simp [DecodeGlobalPosition]
    rcases c2 with _ | m2
    · simp [DecodeGlobalPosition]
    have hred : DecodeGlobalPosition cosDeg (some m1) (some m2) isAirBorne rLat rLon =
        decodeGlobalCore cosDeg m1 m2 isAirBorne rLat rLon := rfl
    rw [hred]
    simp only [Option.some.injEq, reduceCtorEq, false_or, exists_and_left, exists_eq_left']
    unfold decodeGlobalCore
    split_ifs with hNb hF hNL
    · simp only [Except.error.injEq, exists_eq', true_iff]
      exact Or.inl hNb
    · simp only [Except.error.injEq, exists_eq', true_iff]
      exact Or.inr (Or.inl hF)
    · simp only [Except.error.injEq, exists_eq', true_iff]
      exact Or.inr (Or.inr hNL)
    · simp only [reduceCtorEq, exists_false, false_iff]
      push_neg
      exact ⟨not_not.mp hNb, hF, not_not.mp hNL⟩
  · intro cosDeg m1 m2 hNb hF hNL
    have hred : DecodeGlobalPosition cosDeg (some m1) (some m2) false none none =
        decodeGlobalCore cosDeg m1 m2 false none none := rfl
    rw [hred]
    unfold decodeGlobalCore
    rw [if_neg (by simpa using hNb), if_neg (by simpa using hF), if_neg (by simpa using hNL)]
    rfl

/-- C5 (witness): a surface pair with equal Nb, different F, matching NL,
and no reference point decodes to the empty coordinate list. -/
theorem C5_witness :
    DecodeGlobalPosition cosDeg0 (some ⟨17, 0, 0, 0, 0⟩) (some ⟨17, 0, 1, 0, 0⟩)
      false none none = Except.ok [] :=
  C5_global_error_conditions.2 cosDeg0 ⟨17, 0, 0, 0, 0⟩ ⟨17, 0, 1, 0, 0⟩ rfl
    (by decide) (by decide)

/-- C9.  `CPR.DecodeLocal` returns an error exactly when the reference
slice does not have length 2, the reference latitude is outside
[−90, 90], or the reference longitude is above 190 or below −180; in
particular a reference longitude of 185 (beyond 180) is accepted and
decodes to coordinates with no error. -/
theorem C9_local_error_conditions :
    (∀ (c : CPR) (rp : List ℚ) (isAirBorne : Bool),
      (∃ e, c.DecodeLocal rp isAirBorne = Except.error e) ↔
        (rp.length ≠ 2 ∨ ∃ la lo, rp = [la, lo] ∧
          (la > 90 ∨ la < -90 ∨ lo > 190 ∨ lo < -180))) ∧
    CPR.DecodeLocal ⟨17, 0, 0, 92095, 39846⟩ [52.25, 185] true =
      Except.ok [3422013/65536, 5997855/32768] := by
  constructor
  · intro c rp isAirBorne
    match rp with
    | [] => simp [CPR.DecodeLocal]
    | [la0] => simp [CPR.DecodeLocal]
    | la0 :: lo0 :: x :: rest => simp [CPR.DecodeLocal]
    | [la0, lo0] =>
      have hred : c.DecodeLocal [la0, lo0] isAirBorne =
          decodeLocalCore c la0 lo0 isAirBorne := rfl
      rw [hred]
      unfold decodeLocalCore
      split_ifs with h1 h2
      · simp only [Except.error.injEq, exists_eq', true_iff, List.length_cons,
          List.length_nil]
        refine Or.inr ⟨la0, lo0, rfl, ?_⟩
        tauto
      · simp only [Except.error.injEq, exists_eq', true_iff, List.length_cons,
          List.length_nil]
        refine Or.inr ⟨la0, lo0, rfl, ?_⟩
        tauto
      · simp only [reduceCtorEq, exists_false, false_iff, List.length_cons,
          List.length_nil]
        push_neg
        refine ⟨by omega, ?_⟩
        intro la lo heq
        rw [List.cons.injEq, List.cons.injEq] at heq
        obtain ⟨hla, hlo, -⟩ := heq
        subst hla
        subst hlo
        push_neg at h1 h2
        exact ⟨by linarith [h1.1], by linarith [h1.2], by linarith [h2.1],
          by linarith [h2.2]⟩
  · rfl

theorem bit_le_one (r : RawMessage) (n : ℕ) : r.bit n ≤ 1 :=
  Nat.le_of_lt_succ (Nat.mod_lt _ (by norm_num))

theorem bits_foldl_lt (r : RawMessage) (a : ℕ) :
    ∀ (n : ℕ) (acc : ℕ),
      (List.range n).foldl (fun acc i => 2 * acc + r.bit (a + i)) acc < (acc + 1) * 2 ^ n := by
  intro n
  induction n with
  | zero => intro acc; simp
  | succ n ih =>
    intro acc
    rw [List.range_succ, List.foldl_append]
    simp only [List.foldl_cons, List.foldl_nil]
    have h1 := ih acc
    have h2 := bit_le_one r (a + n)
    have h3 : (acc + 1) * 2 ^ (n + 1) = 2 * ((acc + 1) * 2 ^ n) := by ring
    omega

theorem bits_lt (r : RawMessage) (a b : ℕ) : r.bits a b < 2 ^ (b + 1 - a) := by
  have := bits_foldl_lt r a (b + 1 - a) 0
  simpa [RawMessage.bits] using this

theorem decodeGroundSpeed_spec :
    ∀ mv, mv < 128 → exceptValue (decodeGroundSpeed mv) = specMovementKt mv := by
  decide

/-- C6.  For every 7- or 14-byte input whose DF is outside the accepted
set, `Message.UnmarshalBinary` returns the `Unsupported`
downlink-format error while the `RawMessage` is populated with the input
and remains accessible via `Raw()`. -/
theorem C6_unsupported_df (data : List ℕ) (hlen : data.length = 7 ∨ data.length = 14)
    (hdf : RawMessage.DF ⟨data⟩ ∉ acceptedDF) :
    (Message.unmarshalBinary data).2 = some (AErr.unsupported (RawMessage.DF ⟨data⟩)) ∧
      (Message.unmarshalBinary data).1.Raw = ⟨data⟩ := by
  unfold Message.unmarshalBinary RawMessage.unmarshalBinary
  rw [if_pos hlen]
  refine ⟨?_, rfl⟩
  simp [validateRaw, hdf]

/-- C6 (witness): a 7-byte payload with DF = 1. -/
theorem C6_witness :
    (Message.unmarshalBinary [8, 0, 0, 0, 0, 0, 0]).2 = some (AErr.unsupported 1) ∧
      (Message.unmarshalBinary [8, 0, 0, 0, 0, 0, 0]).1.Raw = ⟨[8, 0, 0, 0, 0, 0, 0]⟩ := by
  have h := C6_unsupported_df [8, 0, 0, 0, 0, 0, 0] (Or.inl rfl) (by decide)
  have hdf : RawMessage.DF ⟨[8, 0, 0, 0, 0, 0, 0]⟩ = 1 := by decide
  rw [hdf] at h
  exact h

/-- C7.  For a DF 17/18 message with TC in 5..8, the surface speed
operation succeeds exactly when the movement field (bits 38..44) is in
the piecewise table and the track status bit 45 is set, in which case
the velocity is the table value (knots) converted by `KNOT_TO_MPS` and
the track is bits 46..52 times 360/128 degrees. -/
theorem C7_surface_speed (m : Message)
    (hdf : m.raw.DF = 17 ∨ m.raw.DF = 18) (htc5 : 5 ≤ m.raw.TC) (htc8 : m.raw.TC ≤ 8)
    (hlen : m.raw.data.length = 14) (v t : ℚ) :
    m.SurfaceSpeed = Except.ok (v, t) ↔
      ∃ kt, specMovementKt (m.raw.bits 38 44) = some kt ∧ m.raw.bit 45 = 1 ∧
        v = kt * KNOT_TO_MPS ∧ t = (m.raw.bits 46 52 : ℚ) * (360 / 128) := by
  have hlt : m.raw.bits 38 44 < 128 := by simpa using bits_lt m.raw 38 44
  have hspec := decodeGroundSpeed_spec (m.raw.bits 38 44) hlt
  unfold Message.SurfaceSpeed
  rw [if_neg (by rcases hdf with h | h <;> simp [h]), if_neg (by omega),
    if_neg (by omega)]
  cases hE : decodeGroundSpeed (m.raw.bits 38 44) with
  | error e =>
    rw [hE] at hspec
    simp only [exceptValue] at hspec
    constructor
    · intro h
      exact absurd h (by simp)
    · rintro ⟨kt, hkt, -⟩
      have hcon : (none : Option ℚ) = some kt := hspec.trans hkt
      simp at hcon
  | ok vel =>
    rw [hE] at hspec
    simp only [exceptValue] at hspec
    constructor
    · intro h
      replace h : (if m.raw.bit 45 ≠ 1
          then (Except.error (AErr.notAvailable "ground track not available") :
            Except AErr (ℚ × ℚ))
          else Except.ok (vel * KNOT_TO_MPS, (m.raw.bits 46 52 : ℚ) * (360.0 / 128.0))) =
          Except.ok (v, t) := h
      by_cases hb : m.raw.bit 45 = 1
      · rw [if_neg (by simpa using hb)] at h
        rw [Except.ok.injEq, Prod.mk.injEq] at h
        refine ⟨vel, hspec.symm, hb, h.1.symm, ?_⟩
        rw [← h.2]
        norm_num
      · rw [if_pos hb] at h
        exact absurd h (by simp)
    · rintro ⟨kt, hkt, hb, hv, ht⟩
      have hkv : vel = kt := by
        have hsk := hspec.trans hkt
        simpa using hsk
      show (if m.raw.bit 45 ≠ 1
          then (Except.error (AErr.notAvailable "ground track not available") :
            Except AErr (ℚ × ℚ))
          else Except.ok (vel * KNOT_TO_MPS, (m.raw.bits 46 52 : ℚ) * (360.0 / 128.0))) =
          Except.ok (v, t)
      rw [if_neg (by simp [hb]), hv, ht, hkv]
      norm_num

/-- C7 (witness): DF 17, TC 5, movement 19 (table value 5 kt),
track status set, track bits 69. -/
theorem C7_witness :
    Message.SurfaceSpeed ⟨⟨[136, 0, 0, 0, 41, 60, 80, 0, 0, 0, 0, 0, 0, 0]⟩⟩ =
      Except.ok (5 * KNOT_TO_MPS, 69 * (360 / 128)) := by
  apply (C7_surface_speed ⟨⟨[136, 0, 0, 0, 41, 60, 80, 0, 0, 0, 0, 0, 0, 0]⟩⟩
    (Or.inl (by decide)) (by decide) (by decide) (by decide) _ _).2
  exact ⟨5, by decide, by decide, by decide, by decide⟩

/-- C8 (counterexample).  The claim says that for every DF 17/18 TC 19
message the vertical speed operation returns `64*(m-1)` ft/min (signed)
converted by 0.00508; but when the magnitude field m is 0 the code
returns a not-available error instead of the value the formulas give
(−0.32512 m/s). -/
theorem C8_counterexample :
    RawMessage.DF ⟨[136, 0, 0, 0, 152, 0, 0, 0, 0, 0, 0, 0, 0, 0]⟩ = 17 ∧
      RawMessage.TC ⟨[136, 0, 0, 0, 152, 0, 0, 0, 0, 0, 0, 0, 0, 0]⟩ = 19 ∧
      RawMessage.bits ⟨[136, 0, 0, 0, 152, 0, 0, 0, 0, 0, 0, 0, 0, 0]⟩ 70 78 = 0 ∧
      Message.VerticalSpeed ⟨⟨[136, 0, 0, 0, 152, 0, 0, 0, 0, 0, 0, 0, 0, 0]⟩⟩ =
        Except.error (AErr.notAvailable "vertical rate not available") := by
  refine ⟨by decide, by decide, by decide, rfl⟩

/-- C8 (amended).  For every DF 17/18 message with TC = 19 whose
magnitude field (bits 70..78) is nonzero, the vertical speed operation
returns `64*(m-1)` ft/min, negated when sign bit 69 is set, converted to
m/s by the factor 0.00508; a zero magnitude is reported not available. -/
theorem C8_vertical_speed (m : Message)
    (hdf : m.raw.DF = 17 ∨ m.raw.DF = 18) (htc : m.raw.TC = 19)
    (hlen : m.raw.data.length = 14) (hvr : m.raw.bits 70 78 ≠ 0) :
    m.VerticalSpeed = Except.ok
      ((if m.raw.bit 69 = 1 then -(64 * ((m.raw.bits 70 78 : ℚ) - 1))
        else 64 * ((m.raw.bits 70 78 : ℚ) - 1)) * FEET_PER_MIN_TO_MPS) := by
  unfold Message.VerticalSpeed
  rw [if_neg (by rcases hdf with h | h <;> simp [h]), if_neg (by omega),
    if_neg (by omega), if_neg hvr]
  congr 1

/-- C8 (witness): DF 17, TC 19, sign bit set, magnitude 2, so the rate
is −64 ft/min = −0.32512 m/s. -/
theorem C8_witness :
    Message.VerticalSpeed ⟨⟨[136, 0, 0, 0, 152, 0, 0, 0, 8, 8, 0, 0, 0, 0]⟩⟩ =
      Except.ok (-(0.32512 : ℚ)) := by
  have h := C8_vertical_speed ⟨⟨[136, 0, 0, 0, 152, 0, 0, 0, 8, 8, 0, 0, 0, 0]⟩⟩
    (Or.inl (by decide)) (by decide) (by decide) (by decide)
  rw [h]
  congr 1

end GoAdsb
